import Mathlib

/-!
# Verification of the opennaturemap core against its specification

Shallow embedding of the Python source (`api/geometry_utils.py`,
`api/extractors.py`, `api/views.py`,
`api/management/commands/import_nature_reserves.py`) in Lean 4.

Python floats are embedded as exact rationals (`ℚ`); the algorithms under
study are arithmetic-generic, and every claim here concerns control flow,
set/ordering structure, or exact comparisons, not float rounding.
-/

namespace OpenNatureMap

attribute [local semireducible] Rat.add Rat.sub Rat.mul Rat.inv

/-- A coordinate pair `(lon, lat)`, the shape of one entry of a GeoJSON ring. -/
abbrev Point : Type := ℚ × ℚ

/-- A GeoJSON linear ring: a list of `[lon, lat]` points. -/
abbrev Ring : Type := List Point

/-- The crossing test of one edge `(ring[i], ring[j])` inside the loop of
`_point_in_ring` (`api/geometry_utils.py`): the edge straddles the horizontal
line at `lat` strictly/weakly (`(yi > lat) != (yj > lat)`) and the ray from
`(lon, lat)` to the left crosses it
(`lon < (xj - xi) * (lat - yi) / (yj - yi) + xi`).
The division is exact: the first conjunct forces `yj ≠ yi`. -/
def edgeCrosses (lon lat : ℚ) (e : Point × Point) : Bool :=
  (decide (e.1.2 > lat) != decide (e.2.2 > lat)) &&
    decide (lon < (e.2.1 - e.1.1) * (lat - e.1.2) / (e.2.2 - e.1.2) + e.1.1)

/-- `_point_in_ring(lon, lat, ring)` from `api/geometry_utils.py`: ray casting,
point inside a closed ring iff an odd number of edges is crossed.  The Python
loop visits pairs `(ring[i], ring[j])` with `j = (i - 1) mod n` (`j` starts at
`n - 1`), i.e. the `i`-th pair is `(ring[i], (ring.rotate (n-1))[i])`; the
running boolean `inside` is toggled at every crossing. -/
def point_in_ring (lon lat : ℚ) (ring : Ring) : Bool :=
  if ring.length < 3 then false
  else
    (ring.zip (ring.rotate (ring.length - 1))).foldl
      (fun inside e => if edgeCrosses lon lat e then !inside else inside) false

/-- One constituent polygon of a MultiPolygon `coordinates` entry:
`poly[0]` is the outer ring, `poly[1:]` are hole rings.  GeoJSON requires a
constituent to have at least the outer ring; the Python code indexes `poly[0]`
unconditionally, so the empty constituent (which would raise `IndexError`)
is excluded by the type. -/
structure PolyCoords where
  outer : Ring
  holes : List Ring
  deriving DecidableEq

/-- The dynamic argument `geom` of `point_in_geojson_geometry`
(`api/geometry_utils.py`): either not a `dict` at all, or a `dict` whose
`"type"` is `"Polygon"` (coordinates: optional list of rings), or
`"MultiPolygon"` (coordinates: optional list of constituent polygons), or any
other / missing type, for which only the Python truthiness of
`"coordinates"` is observable (`false` covers both a missing and an empty
value). -/
inductive Geometry where
  | notDict : Geometry
  | polygon (coords : Option (List Ring)) : Geometry
  | multiPolygon (coords : Option (List PolyCoords)) : Geometry
  | otherType (coordsTruthy : Bool) : Geometry
  deriving DecidableEq

/-- The inner `for ring in coords[1:]` loop of the `Polygon` branch of
`point_in_geojson_geometry`: returns `false` (early `return False`) as soon
as a hole ring contains the point, else `true`. -/
def holesExclude (lon lat : ℚ) : List Ring → Bool
  | [] => true
  | r :: rest =>
    if point_in_ring lon lat r then false else holesExclude lon lat rest

/-- The `for poly in coords` loop of the `MultiPolygon` branch of
`point_in_geojson_geometry`: `continue` when the outer ring misses the point,
early `return True` when a constituent contains it with no hole containing
it, `return False` after the loop. -/
def multiPolygonLoop (lon lat : ℚ) : List PolyCoords → Bool
  | [] => false
  | p :: rest =>
    if !(point_in_ring lon lat p.outer) then multiPolygonLoop lon lat rest
    else if holesExclude lon lat p.holes then true
    else multiPolygonLoop lon lat rest

/-- `point_in_geojson_geometry(lon, lat, geom)` from `api/geometry_utils.py`.
Non-dict input, falsy `coordinates` (missing or empty), and an unrecognized
`"type"` all return `False`; a `Polygon` tests the outer ring then the holes;
a `MultiPolygon` tests each constituent in turn. -/
def point_in_geojson_geometry (lon lat : ℚ) : Geometry → Bool
  | .notDict => false
  | .polygon none => false
  | .polygon (some []) => false
  | .polygon (some (outer :: holeRings)) =>
    if !(point_in_ring lon lat outer) then false
    else holesExclude lon lat holeRings
  | .multiPolygon none => false
  | .multiPolygon (some polys) => multiPolygonLoop lon lat polys
  | .otherType _ => false

/-- The shoelace sum of `_ring_area_deg2` (`api/geometry_utils.py`): the loop
adds `ring[i][0] * ring[j][1] - ring[j][0] * ring[i][1]` for `j = (i+1) % n`,
i.e. over the pairs `(ring[i], (ring.rotate 1)[i])`. -/
def shoelaceSum (ring : Ring) : ℚ :=
  (ring.zip (ring.rotate 1)).foldl
    (fun acc e => acc + e.1.1 * e.2.2 - e.2.1 * e.1.2) 0

/-- `_ring_area_deg2(ring)` from `api/geometry_utils.py`: planar area of a
closed ring in degree², `0.0` for fewer than 3 vertices. -/
def ring_area_deg2 (ring : Ring) : ℚ :=
  if ring.length < 3 then 0 else |shoelaceSum ring| / 2

/-- `geojson_geometry_area(geom)` from `api/geometry_utils.py`: deg² area for
Polygon (first ring minus holes) and MultiPolygon (sum over constituents),
floored at `0.0`; `0.0` for every other input. -/
def geojson_geometry_area : Geometry → ℚ
  | .notDict => 0
  | .polygon none => 0
  | .polygon (some []) => 0
  | .polygon (some (outer :: holeRings)) =>
    max 0 (holeRings.foldl (fun t r => t - ring_area_deg2 r) (ring_area_deg2 outer))
  | .multiPolygon none => 0
  | .multiPolygon (some []) => 0
  | .multiPolygon (some polys) =>
    max 0 (polys.foldl
      (fun t p =>
        p.holes.foldl (fun t' r => t' - ring_area_deg2 r) (t + ring_area_deg2 p.outer))
      0)
  | .otherType _ => 0

/-- The hole loop is the conjunction "no hole ring contains the point". -/
theorem holesExclude_eq_all (lon lat : ℚ) (hs : List Ring) :
    holesExclude lon lat hs = hs.all (fun r => !(point_in_ring lon lat r)) := by
  induction hs with
  | nil => rfl
  | cons r rest ih =>
    by_cases h : point_in_ring lon lat r = true
    · simp [holesExclude, h]
    · simp only [Bool.not_eq_true] at h
      simp [holesExclude, h, ih]

/-- The constituent loop is the disjunction over constituents of
"outer ring contains the point and no own hole does". -/
theorem multiPolygonLoop_eq_any (lon lat : ℚ) (ps : List PolyCoords) :
    multiPolygonLoop lon lat ps =
      ps.any (fun p => point_in_ring lon lat p.outer && holesExclude lon lat p.holes) := by
  induction ps with
  | nil => rfl
  | cons p rest ih =>
    by_cases ho : point_in_ring lon lat p.outer = true
    · by_cases hh : holesExclude lon lat p.holes = true
      · simp [multiPolygonLoop, ho, hh]
      · simp only [Bool.not_eq_true] at hh
        simp [multiPolygonLoop, ho, hh, ih]
    · simp only [Bool.not_eq_true] at ho
      simp [multiPolygonLoop, ho, ih]

/-- C4: point-in-geometry with holes.  For a `Polygon`, the point is contained
iff it is inside the outer ring and not inside any hole ring — in particular a
point inside both the outer ring and a hole ring is reported not contained;
for a `MultiPolygon`, the point is contained iff at least one constituent
polygon contains it while excluding that polygon's own holes. -/
theorem C4_point_in_geometry_holes (lon lat : ℚ) (outer : Ring)
    (holeRings : List Ring) (polys : List PolyCoords) :
    (point_in_geojson_geometry lon lat (.polygon (some (outer :: holeRings))) = true ↔
      (point_in_ring lon lat outer = true ∧
        ∀ r ∈ holeRings, ¬ (point_in_ring lon lat r = true)))
    ∧ (point_in_geojson_geometry lon lat (.multiPolygon (some polys)) = true ↔
      ∃ p ∈ polys, point_in_ring lon lat p.outer = true ∧
        ∀ r ∈ p.holes, ¬ (point_in_ring lon lat r = true))
    ∧ (point_in_ring lon lat outer = true →
        (∃ r ∈ holeRings, point_in_ring lon lat r = true) →
        point_in_geojson_geometry lon lat (.polygon (some (outer :: holeRings))) = false) := by
  have hpoly : point_in_geojson_geometry lon lat (.polygon (some (outer :: holeRings))) = true ↔
      (point_in_ring lon lat outer = true ∧
        ∀ r ∈ holeRings, ¬ (point_in_ring lon lat r = true)) := by
    by_cases ho : point_in_ring lon lat outer = true
    · simp [point_in_geojson_geometry, ho, holesExclude_eq_all, List.all_eq_true]
    · simp only [Bool.not_eq_true] at ho
      simp [point_in_geojson_geometry, ho]
  refine ⟨hpoly, ?_, ?_⟩
  · simp [point_in_geojson_geometry, multiPolygonLoop_eq_any, List.any_eq_true,
      holesExclude_eq_all, List.all_eq_true]
  · intro ho ⟨r, hr, hrin⟩
    rcases h : point_in_geojson_geometry lon lat (.polygon (some (outer :: holeRings))) with _ | _
    · rfl
    · exact absurd hrin ((hpoly.mp h).2 r hr)

/-- Witness for C4 at a concrete input: the unit square with a central square
hole does not contain the point `(1/2, 1/2)` that lies inside both rings. -/
theorem C4_point_in_geometry_holes_witness :
    point_in_geojson_geometry (1/2) (1/2)
      (.polygon (some [[(0,0),(1,0),(1,1),(0,1),(0,0)],
                       [(1/4,1/4),(3/4,1/4),(3/4,3/4),(1/4,3/4),(1/4,1/4)]])) = false :=
  (C4_point_in_geometry_holes (1/2) (1/2) [(0,0),(1,0),(1,1),(0,1),(0,0)]
      [[(1/4,1/4),(3/4,1/4),(3/4,3/4),(1/4,3/4),(1/4,1/4)]] []).2.2
    (by decide)
    ⟨[(1/4,1/4),(3/4,1/4),(3/4,3/4),(1/4,3/4),(1/4,1/4)], by decide, by decide⟩

/-- C9: `point_in_geojson_geometry` is total at the public interface: a
non-dict input, a geometry type that is neither `Polygon` nor `MultiPolygon`,
missing or empty coordinates, and a tested ring with fewer than 3 vertices
all yield `false` instead of an error. -/
theorem C9_point_in_geometry_total (lon lat : ℚ) :
    point_in_geojson_geometry lon lat .notDict = false
    ∧ (∀ b, point_in_geojson_geometry lon lat (.otherType b) = false)
    ∧ point_in_geojson_geometry lon lat (.polygon none) = false
    ∧ point_in_geojson_geometry lon lat (.polygon (some [])) = false
    ∧ point_in_geojson_geometry lon lat (.multiPolygon none) = false
    ∧ point_in_geojson_geometry lon lat (.multiPolygon (some [])) = false
    ∧ (∀ ring : Ring, ring.length < 3 → point_in_ring lon lat ring = false)
    ∧ (∀ (outer : Ring) (holeRings : List Ring), outer.length < 3 →
        point_in_geojson_geometry lon lat (.polygon (some (outer :: holeRings))) = false)
    ∧ (∀ polys : List PolyCoords, (∀ p ∈ polys, p.outer.length < 3) →
        point_in_geojson_geometry lon lat (.multiPolygon (some polys)) = false) := by
  have hshort : ∀ ring : Ring, ring.length < 3 → point_in_ring lon lat ring = false := by
    intro ring h
    simp [point_in_ring, h]
  refine ⟨rfl, fun _ => rfl, rfl, rfl, rfl, rfl, hshort, ?_, ?_⟩
  · intro outer holeRings h
    simp [point_in_geojson_geometry, hshort outer h]
  · intro polys h
    simp only [point_in_geojson_geometry, multiPolygonLoop_eq_any]
    simp only [List.any_eq_false]
    intro p hp
    simp [hshort p.outer (h p hp)]

/-- Witness for C9 at concrete inputs: a two-vertex outer ring yields `false`
both directly and inside a `Polygon` and a `MultiPolygon`. -/
theorem C9_point_in_geometry_total_witness :
    point_in_ring 0 0 [(1,1),(2,2)] = false
    ∧ point_in_geojson_geometry 0 0 (.polygon (some [[(1,1),(2,2)]])) = false
    ∧ point_in_geojson_geometry 0 0 (.multiPolygon (some [⟨[(1,1),(2,2)], []⟩])) = false :=
  ⟨(C9_point_in_geometry_total 0 0).2.2.2.2.2.2.1 [(1,1),(2,2)] (by decide),
   (C9_point_in_geometry_total 0 0).2.2.2.2.2.2.2.1 [(1,1),(2,2)] [] (by decide),
   (C9_point_in_geometry_total 0 0).2.2.2.2.2.2.2.2 [⟨[(1,1),(2,2)], []⟩]
     (by intro p hp; simp only [List.mem_singleton] at hp; subst hp; decide)⟩

/-! ## Ray-cast invariance under ring rotation and reversal (C5) -/

/-- The list of edge pairs `(ring[i], ring[(i-1) mod n])` visited by the
`_point_in_ring` loop. -/
def predPairs {α : Type} (l : List α) : List (α × α) :=
  l.zip (l.rotate (l.length - 1))

theorem point_in_ring_eq_foldl (lon lat : ℚ) (ring : Ring) :
    point_in_ring lon lat ring =
      if ring.length < 3 then false
      else (predPairs ring).foldl
        (fun inside e => if edgeCrosses lon lat e then !inside else inside) false := rfl

/-- The edge-crossing test does not depend on the orientation of the edge. -/
theorem edgeCrosses_swap (lon lat : ℚ) (a b : Point) :
    edgeCrosses lon lat (a, b) = edgeCrosses lon lat (b, a) := by
  rcases a with ⟨xa, ya⟩
  rcases b with ⟨xb, yb⟩
  simp only [edgeCrosses]
  by_cases hy : (decide (ya > lat)) = (decide (yb > lat))
  · simp [hy, bne]
  · have hiff : (ya > lat) ≠ (yb > lat) := by
      intro hiff
      exact hy (by simp [hiff])
    have hne : yb - ya ≠ 0 := by
      intro h0
      exact hiff (by rw [sub_eq_zero.mp h0])
    have hx : (xb - xa) * (lat - ya) / (yb - ya) + xa =
        (xa - xb) * (lat - yb) / (ya - yb) + xb := by
      have hne' : ya - yb ≠ 0 := fun h0 => hne (by linarith [sub_eq_zero.mp h0])
      field_simp
      ring
    have hb : (decide (ya > lat) != decide (yb > lat)) =
        (decide (yb > lat) != decide (ya > lat)) := Bool.xor_comm _ _
    rw [hb, hx]

/-- The toggle-accumulator fold of the ray-cast loop computes the parity of
the number of crossed edges. -/
theorem foldl_toggle_eq_parity {α : Type} (p : α → Bool) (l : List α) (b : Bool) :
    l.foldl (fun inside e => if p e then !inside else inside) b =
      xor b (decide (l.countP p % 2 = 1)) := by
  induction l generalizing b with
  | nil => simp
  | cons a rest ih =>
    by_cases h : p a = true
    · rw [List.foldl_cons, if_pos h, ih, List.countP_cons, if_pos h]
      rcases Nat.even_or_odd (rest.countP p) with he | ho
      · have h1 : rest.countP p % 2 = 0 := Nat.even_iff.mp he
        have h2 : (rest.countP p + 1) % 2 = 1 := by omega
        simp [h1, h2]
      · have h1 : rest.countP p % 2 = 1 := Nat.odd_iff.mp ho
        have h2 : (rest.countP p + 1) % 2 = 0 := by omega
        simp [h1, h2]
    · have h' : p a = false := by simpa using h
      rw [List.foldl_cons, if_neg (by simp [h']), ih]
      simp [List.countP_cons, h']

/-- Zipping commutes with rotating both lists by the same amount. -/
theorem zip_rotate {α β : Type} (l : List α) (m : List β) (k : ℕ)
    (h : l.length = m.length) :
    (l.rotate k).zip (m.rotate k) = (l.zip m).rotate k := by
  apply List.ext_getElem
  · simp [List.length_zip, List.length_rotate, h]
  · intro i h1 h2
    simp [List.getElem_zip, List.getElem_rotate, List.length_zip, List.length_rotate, h]

/-- Zipping commutes with reversing both lists of equal length. -/
theorem zip_reverse {α β : Type} (l : List α) (m : List β)
    (h : l.length = m.length) :
    l.reverse.zip m.reverse = (l.zip m).reverse := by
  apply List.ext_getElem
  · simp [List.length_zip, h]
  · intro i h1 h2
    simp [List.getElem_zip, List.getElem_reverse, List.length_zip, h]

/-- Rotating a list rotates its cyclic edge-pair list. -/
theorem predPairs_rotate {α : Type} (l : List α) (k : ℕ) :
    predPairs (l.rotate k) = (predPairs l).rotate k := by
  unfold predPairs
  rw [List.length_rotate, List.rotate_rotate, Nat.add_comm k (l.length - 1),
    ← List.rotate_rotate, zip_rotate _ _ k (by rw [List.length_rotate])]

/-- The number of crossed edges is invariant under rotating the ring. -/
theorem countP_predPairs_rotate {α : Type} (p : α × α → Bool) (l : List α) (k : ℕ) :
    ((predPairs (l.rotate k)).countP p) = (predPairs l).countP p := by
  rw [predPairs_rotate]
  exact (List.rotate_perm (predPairs l) k).countP_eq p

/-- For a symmetric edge predicate, the number of crossed edges is invariant
under reversing the ring. -/
theorem countP_predPairs_reverse {α : Type} (p : α × α → Bool)
    (hp : ∀ a b, p (a, b) = p (b, a)) (l : List α) :
    (predPairs l.reverse).countP p = (predPairs l).countP p := by
  by_cases hlen : 2 ≤ l.length
  · have h2 : l.reverse.rotate (l.length - 1) = (l.rotate 1).reverse := by
      rw [List.reverse_rotate, Nat.mod_eq_of_lt (by omega)]
    have h1 : predPairs l.reverse = (l.zip (l.rotate 1)).reverse := by
      unfold predPairs
      rw [List.length_reverse, h2, zip_reverse l (l.rotate 1) (by rw [List.length_rotate])]
    have h3 : l.zip (l.rotate 1) = ((l.rotate 1).zip l).map Prod.swap :=
      (List.zip_swap (l.rotate 1) l).symm
    have h4 : (l.rotate 1).zip l = predPairs (l.rotate 1) := by
      unfold predPairs
      rw [List.length_rotate, List.rotate_rotate]
      have h5 : 1 + (l.length - 1) = l.length := by omega
      rw [h5, List.rotate_length]
    calc (predPairs l.reverse).countP p
        = ((l.zip (l.rotate 1)).reverse).countP p := by rw [h1]
      _ = (l.zip (l.rotate 1)).countP p :=
          ((l.zip (l.rotate 1)).reverse_perm).countP_eq p
      _ = (((l.rotate 1).zip l).map Prod.swap).countP p := by rw [h3]
      _ = ((l.rotate 1).zip l).countP (p ∘ Prod.swap) := List.countP_map p Prod.swap _
      _ = ((l.rotate 1).zip l).countP p := by
          congr 1
          funext e
          exact hp e.2 e.1
      _ = (predPairs (l.rotate 1)).countP p := by rw [h4]
      _ = (predPairs l).countP p := countP_predPairs_rotate p l 1
  · rcases l with _ | ⟨a, _ | ⟨b, t⟩⟩
    · rfl
    · rfl
    · exact absurd (by simp [List.length_cons]) hlen

/-- C5: `_point_in_ring` returns the same result on any cyclic rotation of the
ring's vertex sequence (different starting vertex) and on the ring with its
vertex order reversed (opposite winding direction). -/
theorem C5_point_in_ring_rotation_reversal_invariant
    (lon lat : ℚ) (ring : Ring) (k : ℕ) :
    point_in_ring lon lat (ring.rotate k) = point_in_ring lon lat ring
    ∧ point_in_ring lon lat ring.reverse = point_in_ring lon lat ring := by
  constructor
  · rw [point_in_ring_eq_foldl, point_in_ring_eq_foldl, List.length_rotate]
    by_cases h : ring.length < 3
    · simp [h]
    · rw [if_neg h, if_neg h, foldl_toggle_eq_parity, foldl_toggle_eq_parity,
        countP_predPairs_rotate]
  · rw [point_in_ring_eq_foldl, point_in_ring_eq_foldl, List.length_reverse]
    by_cases h : ring.length < 3
    · simp [h]
    · rw [if_neg h, if_neg h, foldl_toggle_eq_parity, foldl_toggle_eq_parity,
        countP_predPairs_reverse (edgeCrosses lon lat) (fun a b => edgeCrosses_swap lon lat a b)]

/-! ## GridTiler: `calculate_tile_size_degrees` and `split_bbox_into_tiles`
(`api/management/commands/import_nature_reserves.py`) -/

/-- A bounding box `(min_lon, min_lat, max_lon, max_lat)`. -/
structure BBox where
  minLon : ℚ
  minLat : ℚ
  maxLon : ℚ
  maxLat : ℚ
  deriving DecidableEq

/-- Number of iterations of a `while current < maxv: current += step` loop
started at `cur`, for a positive `step`. -/
def sweepCount (step maxv cur : ℚ) : ℕ := (⌈(maxv - cur) / step⌉).toNat

/-- Fuel-indexed body of a `while current < maxv: emit current; current += step`
loop: the list of values the loop variable takes. -/
def tileStartsF : ℕ → ℚ → ℚ → ℚ → List ℚ
  | 0, _, _, _ => []
  | fuel + 1, step, maxv, cur =>
    if cur < maxv then cur :: tileStartsF fuel step maxv (cur + step) else []

/-- The values taken by the loop variable of the `while current < max` loops of
`split_bbox_into_tiles`.  For `0 < step` the fuel `sweepCount` is exactly the
iteration count, so this equals the Python loop; the Python loop does not
terminate for `step ≤ 0`, a case the importer never reaches (tile sizes are
positive). -/
def tileStarts (step maxv cur : ℚ) : List ℚ :=
  tileStartsF (sweepCount step maxv cur) step maxv cur

theorem sweepCount_zero_of_le (step maxv cur : ℚ) (h : maxv ≤ cur) (hstep : 0 < step) :
    sweepCount step maxv cur = 0 := by
  unfold sweepCount
  have h1 : (maxv - cur) / step ≤ 0 := (div_le_iff₀ hstep).mpr (by linarith)
  have h2 : ⌈(maxv - cur) / step⌉ ≤ 0 := Int.ceil_le.mpr (by exact_mod_cast h1)
  omega

theorem sweepCount_pos_of_lt (step maxv cur : ℚ) (h : cur < maxv) (hstep : 0 < step) :
    1 ≤ sweepCount step maxv cur := by
  unfold sweepCount
  have h1 : 0 < (maxv - cur) / step := div_pos (by linarith) hstep
  have h2 : 1 ≤ ⌈(maxv - cur) / step⌉ := Int.ceil_pos.mpr h1
  omega

theorem sweepCount_step (step maxv cur : ℚ) (hstep : 0 < step) :
    sweepCount step maxv (cur + step) = sweepCount step maxv cur - 1 := by
  unfold sweepCount
  have h1 : (maxv - (cur + step)) / step = (maxv - cur) / step - 1 := by
    rw [show maxv - (cur + step) = (maxv - cur) - step by ring, sub_div,
      div_self (ne_of_gt hstep)]
  rw [h1, show (1 : ℚ) = ((1 : ℤ) : ℚ) by norm_num, Int.ceil_sub_int]
  omega

/-- Closed form of the `while` loop: with enough fuel it emits exactly
`cur, cur + step, …` for `sweepCount` iterations. -/
theorem tileStartsF_eq_range (step maxv : ℚ) (hstep : 0 < step) :
    ∀ (fuel : ℕ) (cur : ℚ), sweepCount step maxv cur ≤ fuel →
      tileStartsF fuel step maxv cur =
        (List.range (sweepCount step maxv cur)).map (fun i : ℕ => cur + (i : ℚ) * step) := by
  intro fuel
  induction fuel with
  | zero =>
    intro cur hc
    have h0 : sweepCount step maxv cur = 0 := Nat.le_zero.mp hc
    rw [h0]
    rfl
  | succ n ih =>
    intro cur hc
    by_cases h : cur < maxv
    · have h1 : 1 ≤ sweepCount step maxv cur := sweepCount_pos_of_lt step maxv cur h hstep
      have h2 : sweepCount step maxv (cur + step) = sweepCount step maxv cur - 1 :=
        sweepCount_step step maxv cur hstep
      obtain ⟨k, hk⟩ : ∃ k, sweepCount step maxv cur = k + 1 :=
        ⟨sweepCount step maxv cur - 1, by omega⟩
      have h3 : sweepCount step maxv (cur + step) = k := by omega
      have h4 : sweepCount step maxv (cur + step) ≤ n := by omega
      rw [tileStartsF, if_pos h, ih (cur + step) h4, h3, hk, List.range_succ_eq_map,
        List.map_cons, List.map_map]
      congr 1
      · norm_num
      · apply List.map_congr_left
        intro i _
        simp only [Function.comp_apply]
        push_cast
        ring
    · have h0 : sweepCount step maxv cur = 0 :=
        sweepCount_zero_of_le step maxv cur (le_of_not_lt h) hstep
      rw [tileStartsF, if_neg h, h0]
      rfl

/-- The loop value list in closed form, for a positive step. -/
theorem tileStarts_eq_range (step maxv cur : ℚ) (hstep : 0 < step) :
    tileStarts step maxv cur =
      (List.range (sweepCount step maxv cur)).map (fun i : ℕ => cur + (i : ℚ) * step) :=
  tileStartsF_eq_range step maxv hstep _ cur le_rfl

/-- `calculate_tile_size_degrees(center_lat, km)` from
`import_nature_reserves.py`: `(km / (111 * cos(radians(center_lat))), km / 111)`.
The transcendental kernel `lat ↦ cos(radians(lat))` is kept abstract as the
parameter `cosr` (the real cosine is not rational-valued); every statement
below holds for, or is refuted by, concrete instances of `cosr`. -/
def calculate_tile_size_degrees (cosr : ℚ → ℚ) (center_lat km : ℚ) : ℚ × ℚ :=
  (km / (111 * cosr center_lat), km / 111)

/-- `split_bbox_into_tiles(bbox, tile_size_km)` from
`import_nature_reserves.py`: both degree sizes are computed once, from the
latitude of the center of the whole bbox; the outer `while` sweeps latitude,
the inner `while` sweeps longitude, and each emitted cell is clipped to the
bbox edges with `min`. -/
def split_bbox_into_tiles (cosr : ℚ → ℚ) (bbox : BBox) (km : ℚ) : List BBox :=
  let center_lat := (bbox.minLat + bbox.maxLat) / 2
  let lon_degrees := (calculate_tile_size_degrees cosr center_lat km).1
  let lat_degrees := (calculate_tile_size_degrees cosr center_lat km).2
  (tileStarts lat_degrees bbox.maxLat bbox.minLat).flatMap fun current_lat =>
    (tileStarts lon_degrees bbox.maxLon bbox.minLon).map fun current_lon =>
      ⟨current_lon, current_lat,
        min (current_lon + lon_degrees) bbox.maxLon,
        min (current_lat + lat_degrees) bbox.maxLat⟩

/-- Modelled from the spec's words (the refinement target of C2, not from the
source): the same sweep but with `lonDeg` "recomputed per-row center
latitude", the row center being the midpoint of the clipped row. -/
def split_bbox_into_tiles_spec (cosr : ℚ → ℚ) (bbox : BBox) (km : ℚ) : List BBox :=
  let lat_degrees := km / 111
  (tileStarts lat_degrees bbox.maxLat bbox.minLat).flatMap fun current_lat =>
    let tile_max_lat := min (current_lat + lat_degrees) bbox.maxLat
    let row_center := (current_lat + tile_max_lat) / 2
    let lon_degrees := (calculate_tile_size_degrees cosr row_center km).1
    (tileStarts lon_degrees bbox.maxLon bbox.minLon).map fun current_lon =>
      ⟨current_lon, current_lat,
        min (current_lon + lon_degrees) bbox.maxLon,
        tile_max_lat⟩

theorem map_flatMap_comp {α β γ : Type} (f : α → β) (g : β → List γ) (l : List α) :
    (l.map f).flatMap g = l.flatMap (fun a => g (f a)) := by
  induction l with
  | nil => rfl
  | cons a rest ih => simp [List.flatMap_cons, ih]

/-- Row-major closed form of `split_bbox_into_tiles`: both degree sizes are
computed once from the whole-bbox center latitude; row `i` starts at
`minLat + i·latDeg`, column `j` at `minLon + j·lonDeg`, every cell clipped to
the bbox edges. -/
theorem split_eq_rowMajor (cosr : ℚ → ℚ) (bbox : BBox) (km lonDeg latDeg : ℚ)
    (hdeg : calculate_tile_size_degrees cosr ((bbox.minLat + bbox.maxLat) / 2) km =
      (lonDeg, latDeg))
    (hlon : 0 < lonDeg) (hlat : 0 < latDeg) :
    split_bbox_into_tiles cosr bbox km =
      (List.range (sweepCount latDeg bbox.maxLat bbox.minLat)).flatMap fun i =>
        (List.range (sweepCount lonDeg bbox.maxLon bbox.minLon)).map fun j =>
          ⟨bbox.minLon + (j : ℚ) * lonDeg,
           bbox.minLat + (i : ℚ) * latDeg,
           min (bbox.minLon + (j : ℚ) * lonDeg + lonDeg) bbox.maxLon,
           min (bbox.minLat + (i : ℚ) * latDeg + latDeg) bbox.maxLat⟩ := by
  simp only [split_bbox_into_tiles, hdeg]
  rw [tileStarts_eq_range _ _ _ hlat, tileStarts_eq_range _ _ _ hlon, map_flatMap_comp]
  exact congrArg _ (funext fun i => by rw [List.map_map]; rfl)

/-- C2 (counterexample): `split_bbox_into_tiles` does not recompute the
longitude tile size from each row's center latitude; with a cosine stand-in
that varies between the whole-bbox center latitude `1` and the row centers
`1/2` and `3/2`, the source function and the per-row variant described by the
spec return different tile lists on the bbox `(0, 0, 10, 2)`. -/
theorem C2_counterexample :
    split_bbox_into_tiles (fun lat => 1 / (1 + lat)) ⟨0, 0, 10, 2⟩ 111 ≠
      split_bbox_into_tiles_spec (fun lat => 1 / (1 + lat)) ⟨0, 0, 10, 2⟩ 111 := by
  decide

/-- C2 (amended): `split` sweeps latitude from min to max in `latDeg`
increments and, within each row, sweeps longitude in `lonDeg` increments,
where both `lonDeg` and `latDeg` are computed once by
`calculate_tile_size_degrees` from the center latitude of the whole bbox (not
per row); each cell is clipped to the original bbox edges and the ordered
(row-major) list of tile bboxes is returned. -/
theorem C2_split_sweep (cosr : ℚ → ℚ) (bbox : BBox) (km lonDeg latDeg : ℚ)
    (hdeg : calculate_tile_size_degrees cosr ((bbox.minLat + bbox.maxLat) / 2) km =
      (lonDeg, latDeg))
    (hlon : 0 < lonDeg) (hlat : 0 < latDeg) :
    split_bbox_into_tiles cosr bbox km =
      (List.range (sweepCount latDeg bbox.maxLat bbox.minLat)).flatMap fun i =>
        (List.range (sweepCount lonDeg bbox.maxLon bbox.minLon)).map fun j =>
          ⟨bbox.minLon + (j : ℚ) * lonDeg,
           bbox.minLat + (i : ℚ) * latDeg,
           min (bbox.minLon + (j : ℚ) * lonDeg + lonDeg) bbox.maxLon,
           min (bbox.minLat + (i : ℚ) * latDeg + latDeg) bbox.maxLat⟩ :=
  split_eq_rowMajor cosr bbox km lonDeg latDeg hdeg hlon hlat

/-- Witness for C2 at a concrete input: one tile covering the unit bbox. -/
theorem C2_split_sweep_witness :
    split_bbox_into_tiles (fun _ => 1) ⟨0, 0, 1, 1⟩ 111 =
      (List.range (sweepCount ((111 : ℚ) / 111) 1 0)).flatMap fun i =>
        (List.range (sweepCount ((111 : ℚ) / (111 * 1)) 1 0)).map fun j =>
          ⟨0 + (j : ℚ) * ((111 : ℚ) / (111 * 1)),
           0 + (i : ℚ) * ((111 : ℚ) / 111),
           min (0 + (j : ℚ) * ((111 : ℚ) / (111 * 1)) + (111 : ℚ) / (111 * 1)) 1,
           min (0 + (i : ℚ) * ((111 : ℚ) / 111) + (111 : ℚ) / 111) 1⟩ :=
  C2_split_sweep (fun _ => 1) ⟨0, 0, 1, 1⟩ 111 ((111 : ℚ) / (111 * 1)) ((111 : ℚ) / 111)
    rfl (by decide) (by decide)

/-- A point `(lon, lat)` lies in a bounding box (boundary included). -/
def bboxContains (b : BBox) (lon lat : ℚ) : Prop :=
  b.minLon ≤ lon ∧ lon ≤ b.maxLon ∧ b.minLat ≤ lat ∧ lat ≤ b.maxLat

instance (b : BBox) (lon lat : ℚ) : Decidable (bboxContains b lon lat) := by
  unfold bboxContains
  infer_instance

/-- A point `(lon, lat)` lies strictly inside a bounding box (open interior). -/
def bboxStrictlyInside (b : BBox) (lon lat : ℚ) : Prop :=
  b.minLon < lon ∧ lon < b.maxLon ∧ b.minLat < lat ∧ lat < b.maxLat

/-- 1-D coverage of the sweep: every `y` in `[minv, maxv]` lies in the step
interval of some emitted loop value. -/
theorem sweep_cover (step minv maxv y : ℚ) (hstep : 0 < step) (hspan : minv < maxv)
    (h1 : minv ≤ y) (h2 : y ≤ maxv) :
    ∃ i, i < sweepCount step maxv minv ∧
      minv + (i : ℚ) * step ≤ y ∧ y ≤ minv + (i : ℚ) * step + step := by
  by_cases hy : y < maxv
  · have hq0 : 0 ≤ (y - minv) / step := div_nonneg (by linarith) hstep.le
    have hfl0 : 0 ≤ ⌊(y - minv) / step⌋ := Int.floor_nonneg.mpr hq0
    have hcast : (((⌊(y - minv) / step⌋).toNat : ℕ) : ℚ) =
        ((⌊(y - minv) / step⌋ : ℤ) : ℚ) := by
      exact_mod_cast Int.toNat_of_nonneg hfl0
    refine ⟨(⌊(y - minv) / step⌋).toNat, ?_, ?_, ?_⟩
    · have hltQ : (y - minv) / step < (maxv - minv) / step := by gcongr
      have hceil : ⌊(y - minv) / step⌋ < ⌈(maxv - minv) / step⌉ := by
        have ha : ((⌊(y - minv) / step⌋ : ℤ) : ℚ) < ((⌈(maxv - minv) / step⌉ : ℤ) : ℚ) :=
          lt_of_le_of_lt (Int.floor_le _) (lt_of_lt_of_le hltQ (Int.le_ceil _))
        exact_mod_cast ha
      unfold sweepCount
      omega
    · have hfle : ((⌊(y - minv) / step⌋ : ℤ) : ℚ) * step ≤ ((y - minv) / step) * step :=
        mul_le_mul_of_nonneg_right (Int.floor_le _) hstep.le
      rw [div_mul_cancel₀ _ (ne_of_gt hstep)] at hfle
      rw [hcast]
      linarith
    · have hlt1 : ((y - minv) / step) * step <
          (((⌊(y - minv) / step⌋ : ℤ) : ℚ) + 1) * step :=
        mul_lt_mul_of_pos_right (Int.lt_floor_add_one _) hstep
      rw [div_mul_cancel₀ _ (ne_of_gt hstep), add_mul, one_mul] at hlt1
      rw [hcast]
      linarith
  · have hy' : y = maxv := le_antisymm h2 (le_of_not_lt hy)
    have hn1 : 1 ≤ sweepCount step maxv minv := sweepCount_pos_of_lt step maxv minv hspan hstep
    have hQpos : 0 < (maxv - minv) / step := div_pos (by linarith) hstep
    have hcpos : 0 ≤ ⌈(maxv - minv) / step⌉ := le_of_lt (Int.ceil_pos.mpr hQpos)
    have hcastn : ((sweepCount step maxv minv : ℕ) : ℚ) =
        ((⌈(maxv - minv) / step⌉ : ℤ) : ℚ) := by
      unfold sweepCount
      exact_mod_cast Int.toNat_of_nonneg hcpos
    have hcast1 : ((sweepCount step maxv minv - 1 : ℕ) : ℚ) =
        ((⌈(maxv - minv) / step⌉ : ℤ) : ℚ) - 1 := by
      rw [Nat.cast_sub hn1, hcastn, Nat.cast_one]
    refine ⟨sweepCount step maxv minv - 1, by omega, ?_, ?_⟩
    · have h3 : ((⌈(maxv - minv) / step⌉ : ℤ) : ℚ) - 1 < (maxv - minv) / step := by
        have hc := Int.ceil_lt_add_one ((maxv - minv) / step)
        have hc' : ((⌈(maxv - minv) / step⌉ : ℤ) : ℚ) < (maxv - minv) / step + 1 := by
          exact_mod_cast hc
        linarith
      have h4 : (((⌈(maxv - minv) / step⌉ : ℤ) : ℚ) - 1) * step ≤
          ((maxv - minv) / step) * step :=
        mul_le_mul_of_nonneg_right (le_of_lt h3) hstep.le
      rw [div_mul_cancel₀ _ (ne_of_gt hstep), sub_mul, one_mul] at h4
      rw [hcast1, sub_mul, one_mul]
      linarith
    · have h5 : ((maxv - minv) / step) * step ≤ ((⌈(maxv - minv) / step⌉ : ℤ) : ℚ) * step :=
        mul_le_mul_of_nonneg_right (Int.le_ceil _) hstep.le
      rw [div_mul_cancel₀ _ (ne_of_gt hstep)] at h5
      rw [hcast1, sub_mul, one_mul]
      linarith

/-- C3 (counterexample): for the degenerate (but spec-legal) bounding box
`(0, 0, 1, 0)` — a nonempty segment of points with `lat = 0` — `split`
returns no tiles at all, so the union of the returned tiles does not cover
the bbox. -/
theorem C3_counterexample :
    ¬ (∀ lon lat : ℚ, bboxContains ⟨0, 0, 1, 0⟩ lon lat ↔
        ∃ t ∈ split_bbox_into_tiles (fun _ => 1) ⟨0, 0, 1, 0⟩ 40, bboxContains t lon lat) := by
  intro hcl
  have hmem : bboxContains ⟨0, 0, 1, 0⟩ (1/2) 0 := by decide
  have hempty : split_bbox_into_tiles (fun _ => 1) ⟨0, 0, 1, 0⟩ 40 = [] := by decide
  rcases (hcl (1/2) 0).mp hmem with ⟨t, ht, _⟩
  rw [hempty] at ht
  exact (List.not_mem_nil t) ht

/-- C3 (amended): for a nondegenerate bounding box and positive tile degree
sizes, the closed tiles returned by `split_bbox_into_tiles` cover the bbox
exactly (a point lies in the bbox iff it lies in some returned tile), and any
two distinct tiles share at most boundary points (their open interiors are
disjoint). -/
theorem C3_split_cover_disjoint (cosr : ℚ → ℚ) (bbox : BBox) (km lonDeg latDeg : ℚ)
    (hdeg : calculate_tile_size_degrees cosr ((bbox.minLat + bbox.maxLat) / 2) km =
      (lonDeg, latDeg))
    (hlon : 0 < lonDeg) (hlat : 0 < latDeg)
    (hlonspan : bbox.minLon < bbox.maxLon) (hlatspan : bbox.minLat < bbox.maxLat) :
    (∀ lon lat : ℚ, bboxContains bbox lon lat ↔
      ∃ t ∈ split_bbox_into_tiles cosr bbox km, bboxContains t lon lat)
    ∧ (split_bbox_into_tiles cosr bbox km).Pairwise
        (fun t1 t2 => ∀ lon lat : ℚ,
          ¬ (bboxStrictlyInside t1 lon lat ∧ bboxStrictlyInside t2 lon lat)) := by
  rw [split_eq_rowMajor cosr bbox km lonDeg latDeg hdeg hlon hlat]
  constructor
  · intro lon lat
    constructor
    · rintro ⟨hl1, hl2, hl3, hl4⟩
      obtain ⟨i, hi, hi1, hi2⟩ :=
        sweep_cover latDeg bbox.minLat bbox.maxLat lat hlat hlatspan hl3 hl4
      obtain ⟨j, hj, hj1, hj2⟩ :=
        sweep_cover lonDeg bbox.minLon bbox.maxLon lon hlon hlonspan hl1 hl2
      refine ⟨⟨bbox.minLon + (j : ℚ) * lonDeg, bbox.minLat + (i : ℚ) * latDeg,
          min (bbox.minLon + (j : ℚ) * lonDeg + lonDeg) bbox.maxLon,
          min (bbox.minLat + (i : ℚ) * latDeg + latDeg) bbox.maxLat⟩, ?_, ?_⟩
      · exact List.mem_flatMap.mpr ⟨i, List.mem_range.mpr hi,
          List.mem_map.mpr ⟨j, List.mem_range.mpr hj, rfl⟩⟩
      · exact ⟨hj1, le_min (by linarith) hl2, hi1, le_min (by linarith) hl4⟩
    · rintro ⟨t, htmem, htc⟩
      rw [List.mem_flatMap] at htmem
      obtain ⟨i, hir, htm2⟩ := htmem
      rw [List.mem_map] at htm2
      obtain ⟨j, hjr, rfl⟩ := htm2
      obtain ⟨hc1, hc2, hc3, hc4⟩ := htc
      dsimp only at hc1 hc2 hc3 hc4
      have hj0 : (0 : ℚ) ≤ (j : ℚ) * lonDeg := mul_nonneg (Nat.cast_nonneg j) hlon.le
      have hi0 : (0 : ℚ) ≤ (i : ℚ) * latDeg := mul_nonneg (Nat.cast_nonneg i) hlat.le
      exact ⟨by linarith, le_trans hc2 (min_le_right _ _),
        by linarith, le_trans hc4 (min_le_right _ _)⟩
  · rw [List.flatMap_def, List.pairwise_flatten]
    constructor
    · intro l hl
      rw [List.mem_map] at hl
      obtain ⟨i, hir, rfl⟩ := hl
      rw [List.pairwise_map]
      refine (List.pairwise_lt_range _).imp ?_
      intro j j' hjj' lon lat hcontra
      obtain ⟨⟨a1, a2, a3, a4⟩, ⟨b1, b2, b3, b4⟩⟩ := hcontra
      dsimp only at a1 a2 a3 a4 b1 b2 b3 b4
      have h1 : lon < bbox.minLon + (j : ℚ) * lonDeg + lonDeg :=
        lt_of_lt_of_le a2 (min_le_left _ _)
      have hjj : (j : ℚ) + 1 ≤ (j' : ℚ) := by exact_mod_cast hjj'
      have h2 : ((j : ℚ) + 1) * lonDeg ≤ (j' : ℚ) * lonDeg :=
        mul_le_mul_of_nonneg_right hjj hlon.le
      rw [add_mul, one_mul] at h2
      exact absurd b1 (by linarith)
    · rw [List.pairwise_map]
      refine (List.pairwise_lt_range _).imp ?_
      intro i i' hii' x hx y hy lon lat hcontra
      rw [List.mem_map] at hx hy
      obtain ⟨j, hjr, rfl⟩ := hx
      obtain ⟨j', hjr', rfl⟩ := hy
      obtain ⟨⟨a1, a2, a3, a4⟩, ⟨b1, b2, b3, b4⟩⟩ := hcontra
      dsimp only at a1 a2 a3 a4 b1 b2 b3 b4
      have h1 : lat < bbox.minLat + (i : ℚ) * latDeg + latDeg :=
        lt_of_lt_of_le a4 (min_le_left _ _)
      have hii : (i : ℚ) + 1 ≤ (i' : ℚ) := by exact_mod_cast hii'
      have h2 : ((i : ℚ) + 1) * latDeg ≤ (i' : ℚ) * latDeg :=
        mul_le_mul_of_nonneg_right hii hlat.le
      rw [add_mul, one_mul] at h2
      exact absurd b3 (by linarith)

/-- Witness for C3 at a concrete input: a single point query against the unit
bbox split into one tile. -/
theorem C3_split_cover_disjoint_witness :
    bboxContains ⟨0, 0, 1, 1⟩ (1/2) (1/2) ↔
      ∃ t ∈ split_bbox_into_tiles (fun _ => 1) ⟨0, 0, 1, 1⟩ 111,
        bboxContains t (1/2) (1/2) :=
  (C3_split_cover_disjoint (fun _ => 1) ⟨0, 0, 1, 1⟩ 111 1 1 (by decide)
    (by decide) (by decide) (by decide) (by decide)).1 (1/2) (1/2)

/-! ## PointQueryEngine: `NatureReserveViewSet.at_point` (`api/views.py`) -/

/-- A stored `NatureReserve` row, restricted to the fields `at_point` reads.
Bbox columns are nullable.  `geometry` is the per-record result of
`geometry_from_reserve` (see that definition below). -/
structure StoredReserve where
  id : String
  minLon : Option ℚ
  minLat : Option ℚ
  maxLon : Option ℚ
  maxLat : Option ℚ
  source : Option String
  operators : List Int
  protect_class : Option String
  geometry : Option Geometry
  deriving DecidableEq

/-- `PROTECTION_LEVEL_CLASSES` from `api/views.py`. -/
def PROTECTION_LEVEL_CLASSES : List (String × List String) :=
  [("strict", ["1a", "1b", "1"]),
   ("national_park", ["2"]),
   ("habitat_monument", ["3", "4"]),
   ("landscape_sustainable", ["5", "6"]),
   ("eu_international", ["97"]),
   ("international_intercontinental", ["98"]),
   ("resource", ["11", "12", "13", "14", "15", "16", "17", "18", "19"]),
   ("social_cultural", ["21", "22", "23", "24", "25", "26", "27", "28", "29"]),
   ("other", ["7", "99"])]

/-- All class codes appearing in the table (the `known_classes` set of the
`"other"` branch). -/
def known_protect_classes : List String :=
  (PROTECTION_LEVEL_CLASSES.map (fun e => e.2)).flatten

/-- `protection_level_q_filter(protection_level)` from `api/views.py`, as a
predicate on a record's nullable `protect_class`: a known level filters by
its class list (SQL `IN` never matches a NULL column); the `"other"` branch
(unreachable for the current table, which itself maps `"other"`) accepts NULL
or an unknown class; an unknown level does not filter. -/
def protection_level_q_filter (plevel : String) (pc : Option String) : Bool :=
  match PROTECTION_LEVEL_CLASSES.find? (fun e => e.1 == plevel) with
  | some e =>
    if e.2.isEmpty then
      if plevel == "other" then
        match pc with
        | none => true
        | some c => !(known_protect_classes.contains c)
      else true
    else
      match pc with
      | some c => e.2.contains c
      | none => false
  | none =>
    if plevel == "other" then
      match pc with
      | none => true
      | some c => !(known_protect_classes.contains c)
    else true

/-- The bbox filter of `at_point`: all four bbox columns non-NULL and
`min_lat ≤ lat ≤ max_lat`, `min_lon ≤ lon ≤ max_lon`. -/
def reserve_bbox_contains (r : StoredReserve) (lon lat : ℚ) : Bool :=
  match r.minLat, r.maxLat, r.minLon, r.maxLon with
  | some a, some b, some c, some d =>
    decide (a ≤ lat) && decide (b ≥ lat) && decide (c ≤ lon) && decide (d ≥ lon)
  | _, _, _, _ => false

/-- The candidate query of `at_point` (`api/views.py`): bbox containment plus
the optional `source`, `operator` and `protection_level` filters.  A falsy
`source` parameter (absent or empty) and an unparsable `operator` leave the
query unfiltered, which `Option` models as `none`. -/
def at_point_prefilter (store : List StoredReserve) (lon lat : ℚ)
    (source : Option String) (operator : Option Int) (plevel : Option String) :
    List StoredReserve :=
  let qs := store.filter (fun r => reserve_bbox_contains r lon lat)
  let qs := match source with
    | some s => qs.filter (fun r => r.source == some s)
    | none => qs
  let qs := match operator with
    | some op => qs.filter (fun r => r.operators.contains op)
    | none => qs
  match plevel with
  | some pl => qs.filter (fun r => protection_level_q_filter pl r.protect_class)
  | none => qs

/-- Modelled from the spec: `geometry_from_reserve` is imported by
`api/views.py` but its definition is not among the provided sources; per the
spec's PointQueryEngine step "for each candidate, reconstruct/fetch its
geometry", it is modelled as the record's stored geometry, `none` when none
can be reconstructed. -/
def geometry_from_reserve (r : StoredReserve) : Option Geometry := r.geometry

/-- The sort key of `at_point`: `geojson_geometry_area` of the reserve's
geometry (only applied to records whose geometry resolved). -/
def reserveArea (r : StoredReserve) : ℚ :=
  match geometry_from_reserve r with
  | some g => geojson_geometry_area g
  | none => 0

/-- Stable insertion into an area-sorted list: an element moves past exactly
the elements of strictly smaller key, which reproduces Python's stable
ascending `list.sort(key=...)`. -/
def insertByArea (r : StoredReserve) : List StoredReserve → List StoredReserve
  | [] => [r]
  | x :: xs =>
    if reserveArea x < reserveArea r then x :: insertByArea r xs else r :: x :: xs

/-- Stable ascending sort by `reserveArea` (the `containing.sort(key=...)`
of `at_point`). -/
def sortByArea : List StoredReserve → List StoredReserve
  | [] => []
  | r :: rest => insertByArea r (sortByArea rest)

/-- `NatureReserveViewSet.at_point` (`api/views.py`), after parameter
validation: bbox-prefilter the store, keep candidates whose resolved geometry
contains the point, and return them sorted ascending by planar area.  There
is no further querying beyond the prefiltered candidates. -/
def at_point (store : List StoredReserve) (lon lat : ℚ)
    (source : Option String) (operator : Option Int) (plevel : Option String) :
    List StoredReserve :=
  let reserves_bbox := at_point_prefilter store lon lat source operator plevel
  let containing := reserves_bbox.filter (fun r =>
    match geometry_from_reserve r with
    | none => false
    | some g => point_in_geojson_geometry lon lat g)
  sortByArea containing

theorem mem_insertByArea (r x : StoredReserve) (l : List StoredReserve) :
    x ∈ insertByArea r l ↔ x = r ∨ x ∈ l := by
  induction l with
  | nil => simp [insertByArea]
  | cons a rest ih =>
    by_cases h : reserveArea a < reserveArea r
    · simp only [insertByArea, if_pos h, List.mem_cons, ih]
      tauto
    · simp only [insertByArea, if_neg h, List.mem_cons]

theorem mem_sortByArea (x : StoredReserve) (l : List StoredReserve) :
    x ∈ sortByArea l ↔ x ∈ l := by
  induction l with
  | nil => simp [sortByArea]
  | cons a rest ih =>
    simp only [sortByArea, mem_insertByArea, List.mem_cons, ih]

/-- The reserve used by the C1 counterexample: stored with the degenerate
bbox `(0, 0, 0, 0)` (an incorrect bbox, as produced e.g. by the
`backfill_reserve_bbox` fallback) while its geometry is a large square that
does contain the query point `(5, 5)`. -/
def c1Reserve : StoredReserve :=
  ⟨"way_1", some 0, some 0, some 0, some 0, none, [], none,
    some (.polygon (some [[(0, 0), (10, 0), (10, 10), (0, 10), (0, 0)]]))⟩

/-- C1 (counterexample): the bbox prefilter for the point `(5, 5)` yields zero
candidates over a one-record store, the record's geometry does contain the
point, yet `at_point` returns the empty list — no fallback full scan runs, so
the record is not returned. -/
theorem C1_counterexample :
    at_point_prefilter [c1Reserve] 5 5 none none none = []
    ∧ point_in_geojson_geometry 5 5
        (.polygon (some [[(0, 0), (10, 0), (10, 10), (0, 10), (0, 0)]])) = true
    ∧ at_point [c1Reserve] 5 5 none none none = [] := by
  refine ⟨by decide, by decide, by decide⟩

/-- C1 (amended): `at_point` never falls back to a full scan: its results are
always drawn from the bbox prefilter's candidates, and when the prefilter
yields zero candidates the response is empty, so a record with a missing or
incorrect stored bbox is not returned even if its geometry contains the
point. -/
theorem C1_at_point_no_fallback (store : List StoredReserve) (lon lat : ℚ)
    (source : Option String) (operator : Option Int) (plevel : Option String) :
    (at_point_prefilter store lon lat source operator plevel = [] →
      at_point store lon lat source operator plevel = [])
    ∧ ∀ r ∈ at_point store lon lat source operator plevel,
        r ∈ at_point_prefilter store lon lat source operator plevel := by
  constructor
  · intro h
    simp only [at_point, h, List.filter_nil]
    rfl
  · intro r hr
    simp only [at_point, mem_sortByArea, List.mem_filter] at hr
    exact hr.1

/-- Witness for C1 (amended) at a concrete input: the one-record store whose
prefilter is empty produces an empty response. -/
theorem C1_at_point_no_fallback_witness :
    at_point [c1Reserve] 5 5 none none none = [] :=
  (C1_at_point_no_fallback [c1Reserve] 5 5 none none none).1 (by decide)

/-! ## ServerManager (`api/extractors.py`) -/

/-- The mutable state of `ServerManager`: endpoint list, thresholds
(defaults 3 and 50), rotation index, the per-endpoint consecutive-failure
map (`dict.get(s, 0)` semantics: total function, 0 when absent) and the
global success counter. -/
structure ServerManager where
  servers : List String
  max_consecutive_failures : ℕ
  requests_before_retry_failed : ℕ
  server_index : ℕ
  server_failures : String → ℕ
  successful_requests_since_skip : ℕ

/-- `ServerManager.__init__(servers)` with the default thresholds. -/
def ServerManager.init (servers : List String) : ServerManager :=
  ⟨servers, 3, 50, 0, fun _ => 0, 0⟩

/-- The rotation `self.servers[i:] + self.servers[:i]`. -/
def rotated_servers (m : ServerManager) : List String :=
  m.servers.drop m.server_index ++ m.servers.take m.server_index

/-- `ServerManager.get_servers_for_query`: advance the rotation offset,
exclude endpoints whose consecutive-failure count reached the threshold, and
if that excludes everything, clear all failure counters and use the full
rotated list. -/
def get_servers_for_query (m : ServerManager) : List String × ServerManager :=
  let rotated := rotated_servers m
  let m1 : ServerManager :=
    { m with server_index := (m.server_index + 1) % m.servers.length }
  let available :=
    rotated.filter fun s => m.server_failures s < m.max_consecutive_failures
  if available.isEmpty then
    (rotated, { m1 with server_failures := fun _ => 0 })
  else
    (available, m1)

/-- `ServerManager.record_failure`: increment the endpoint's counter. -/
def record_failure (m : ServerManager) (server_url : String) : ServerManager :=
  { m with server_failures := fun s =>
      if s = server_url then m.server_failures server_url + 1 else m.server_failures s }

/-- `ServerManager.record_success`: reset the endpoint's counter to 0,
increment the global success counter, and clear everything once the global
counter reaches the threshold. -/
def record_success (m : ServerManager) (server_url : String) : ServerManager :=
  let f1 : String → ℕ := fun s => if s = server_url then 0 else m.server_failures s
  let cnt := m.successful_requests_since_skip + 1
  if cnt ≥ m.requests_before_retry_failed then
    { m with server_failures := fun _ => 0, successful_requests_since_skip := 0 }
  else
    { m with server_failures := f1, successful_requests_since_skip := cnt }

/-- C7: `ServerManager` bookkeeping with the default thresholds: an endpoint
with failure count ≥ 3 is excluded from the rotation returned for the next
call; if exclusion empties the candidate list, all failure counters clear and
the full rotated list is used; a recorded success resets that endpoint's
counter to 0 and increments the global counter; once the global counter
reaches 50, all failure counters clear and the global counter resets to 0. -/
theorem C7_server_manager_bookkeeping (m : ServerManager) (s : String)
    (h3 : m.max_consecutive_failures = 3)
    (h50 : m.requests_before_retry_failed = 50) :
    ((rotated_servers m).filter
        (fun u => m.server_failures u < m.max_consecutive_failures) ≠ [] →
      (3 ≤ m.server_failures s → s ∉ (get_servers_for_query m).1)
      ∧ ∀ u, u ∈ (get_servers_for_query m).1 ↔
          u ∈ rotated_servers m ∧ m.server_failures u < 3)
    ∧ ((rotated_servers m).filter
        (fun u => m.server_failures u < m.max_consecutive_failures) = [] →
      (get_servers_for_query m).1 = rotated_servers m
      ∧ ∀ u, (get_servers_for_query m).2.server_failures u = 0)
    ∧ (record_success m s).server_failures s = 0
    ∧ (m.successful_requests_since_skip + 1 < 50 →
      (record_success m s).successful_requests_since_skip =
          m.successful_requests_since_skip + 1
      ∧ ∀ u, u ≠ s → (record_success m s).server_failures u = m.server_failures u)
    ∧ (50 ≤ m.successful_requests_since_skip + 1 →
      (∀ u, (record_success m s).server_failures u = 0)
      ∧ (record_success m s).successful_requests_since_skip = 0) := by
  refine ⟨?_, ?_, ?_, ?_, ?_⟩
  · intro hne
    have hie : ((rotated_servers m).filter
        (fun u => decide (m.server_failures u < m.max_consecutive_failures))).isEmpty
          = false := by
      rw [List.isEmpty_eq_false_iff_exists_mem]
      rcases List.exists_mem_of_ne_nil _ hne with ⟨u, hu⟩
      exact ⟨u, hu⟩
    have hfst : (get_servers_for_query m).1 = (rotated_servers m).filter
        (fun u => decide (m.server_failures u < m.max_consecutive_failures)) := by
      simp only [get_servers_for_query, hie, Bool.false_eq_true, if_false]
    constructor
    · intro hs hmem
      rw [hfst, List.mem_filter, h3] at hmem
      have := of_decide_eq_true hmem.2
      omega
    · intro u
      rw [hfst, List.mem_filter, h3]
      constructor
      · intro ⟨h1, h2⟩
        exact ⟨h1, of_decide_eq_true h2⟩
      · intro ⟨h1, h2⟩
        exact ⟨h1, decide_eq_true h2⟩
  · intro hnil
    have hie : ((rotated_servers m).filter
        (fun u => decide (m.server_failures u < m.max_consecutive_failures))).isEmpty
          = true := by
      rw [List.isEmpty_iff]
      exact hnil
    constructor
    · simp only [get_servers_for_query, hie, if_true]
    · intro u
      simp only [get_servers_for_query, hie, if_true]
  · by_cases hc : m.successful_requests_since_skip + 1 ≥ m.requests_before_retry_failed
    · simp only [record_success, if_pos hc]
    · simp [record_success, if_neg hc]
  · intro hlt
    have hc : ¬ (m.successful_requests_since_skip + 1 ≥ m.requests_before_retry_failed) := by
      omega
    constructor
    · simp only [record_success, if_neg hc]
    · intro u hu
      simp only [record_success, if_neg hc, if_neg hu]
  · intro hge
    have hc : m.successful_requests_since_skip + 1 ≥ m.requests_before_retry_failed := by
      omega
    exact ⟨fun u => by simp only [record_success, if_pos hc],
      by simp only [record_success, if_pos hc]⟩

/-- Witness for C7 at a concrete state: endpoint `"a"` with 3 recorded
failures is excluded from the rotation while `"b"` survives, and a success
for `"a"` resets its counter. -/
theorem C7_server_manager_bookkeeping_witness :
    "a" ∉ (get_servers_for_query
        ⟨["a", "b"], 3, 50, 0, fun u => if u = "a" then 3 else 0, 0⟩).1
    ∧ (record_success
        ⟨["a", "b"], 3, 50, 0, fun u => if u = "a" then 3 else 0, 0⟩ "a").server_failures "a"
      = 0 :=
  ⟨((C7_server_manager_bookkeeping
      ⟨["a", "b"], 3, 50, 0, fun u => if u = "a" then 3 else 0, 0⟩ "a" rfl rfl).1
      (by decide)).1 (by decide),
   (C7_server_manager_bookkeeping
      ⟨["a", "b"], 3, 50, 0, fun u => if u = "a" then 3 else 0, 0⟩ "a" rfl rfl).2.2.1⟩

/-! ## CrawlController: the tile loop of `Command.handle`
(`api/management/commands/import_nature_reserves.py`) -/

/-- The per-tile outcome the tile loop persists into the `ImportGrid` row:
skipped by the resume/min-age rules, succeeded with counts, or failed with
the error text (`grid.success = False`, `grid.error_message = str(e)`). -/
inductive TileResult where
  | skipped (tile : BBox)
  | succeeded (tile : BBox) (created updated errors : ℕ)
  | failed (tile : BBox) (error : String)
  deriving DecidableEq

/-- The tile a result is about. -/
def TileResult.tile : TileResult → BBox
  | .skipped t => t
  | .succeeded t _ _ _ => t
  | .failed t _ => t

/-- The `for tile_idx, tile_bbox in enumerate(tiles, 1)` loop of
`Command.handle` (gridded path): each tile is either skipped by
`should_skip_grid` with no network call, or fetched and processed inside a
`try` whose `except requests.exceptions.RequestException` /
`except Exception` arms mark only that tile failed and fall through to the
next iteration.  `fetch` abstracts `extractor.extract` together with its
mutable state `σ` (the extractor's `ServerManager` persists across tiles); an
`Except.error` is a raised exception; `process` abstracts
`process_tile_reserves`, whose per-record `try` makes it total, returning
`(created, updated, errors)`. -/
def crawlTiles {σ α : Type} (fetch : σ → BBox → Except String α × σ)
    (skip : BBox → Bool) (process : α → ℕ × ℕ × ℕ) :
    σ → List BBox → List TileResult
  | _, [] => []
  | st, t :: rest =>
    if skip t then .skipped t :: crawlTiles fetch skip process st rest
    else
      match fetch st t with
      | (.ok reserves, st') =>
        let c := process reserves
        .succeeded t c.1 c.2.1 c.2.2 :: crawlTiles fetch skip process st' rest
      | (.error msg, st') => .failed t msg :: crawlTiles fetch skip process st' rest

/-- C8: a fetch error on one tile marks only that tile failed (with the error
text) and the crawl continues: the loop records exactly one outcome per tile,
the `i`-th outcome is about the `i`-th tile, and a failing head tile
contributes one `failed` record while the remaining tiles are still processed
(from the post-fetch state). -/
theorem C8_tile_failure_isolated {σ α : Type} (fetch : σ → BBox → Except String α × σ)
    (skip : BBox → Bool) (process : α → ℕ × ℕ × ℕ) (st : σ) (tiles : List BBox) :
    (crawlTiles fetch skip process st tiles).length = tiles.length
    ∧ (∀ i : ℕ, ((crawlTiles fetch skip process st tiles)[i]?).map TileResult.tile
        = tiles[i]?)
    ∧ (∀ (t : BBox) (rest : List BBox) (msg : String) (st' : σ),
        skip t = false → fetch st t = (.error msg, st') →
        crawlTiles fetch skip process st (t :: rest) =
          .failed t msg :: crawlTiles fetch skip process st' rest) := by
  refine ⟨?_, ?_, ?_⟩
  · induction tiles generalizing st with
    | nil => rfl
    | cons t rest ih =>
      by_cases hs : skip t = true
      · simp only [crawlTiles, hs, if_true, List.length_cons, ih]
      · have hs' : skip t = false := by simpa using hs
        rcases hf : fetch st t with ⟨res, st'⟩
        cases res with
        | ok reserves => simp only [crawlTiles, hs', Bool.false_eq_true, if_false, hf,
            List.length_cons, ih]
        | error msg => simp only [crawlTiles, hs', Bool.false_eq_true, if_false, hf,
            List.length_cons, ih]
  · induction tiles generalizing st with
    | nil => intro i; rfl
    | cons t rest ih =>
      intro i
      by_cases hs : skip t = true
      · cases i with
        | zero => simp [crawlTiles, hs, TileResult.tile]
        | succ n => simp only [crawlTiles, hs, if_true, List.getElem?_cons_succ, ih]
      · have hs' : skip t = false := by simpa using hs
        rcases hf : fetch st t with ⟨res, st'⟩
        cases res with
        | ok reserves =>
          cases i with
          | zero => simp [crawlTiles, hs', hf, TileResult.tile]
          | succ n => simp only [crawlTiles, hs', Bool.false_eq_true, if_false, hf,
              List.getElem?_cons_succ, ih]
        | error msg =>
          cases i with
          | zero => simp [crawlTiles, hs', hf, TileResult.tile]
          | succ n => simp only [crawlTiles, hs', Bool.false_eq_true, if_false, hf,
              List.getElem?_cons_succ, ih]
  · intro t rest msg st' hs hf
    simp only [crawlTiles, hs, Bool.false_eq_true, if_false, hf]

/-- Witness for C8 at a concrete input: a fetch that always raises marks the
head tile failed and the crawl proceeds to the remaining tile. -/
theorem C8_tile_failure_isolated_witness :
    crawlTiles (fun (_ : Unit) (_ : BBox) => (Except.error "boom", ()))
        (fun _ => false) (fun (_ : Unit) => (0, 0, 0)) ()
        [⟨0, 0, 1, 1⟩, ⟨2, 2, 3, 3⟩] =
      .failed ⟨0, 0, 1, 1⟩ "boom" ::
        crawlTiles (fun (_ : Unit) (_ : BBox) => (Except.error "boom", ()))
          (fun _ => false) (fun (_ : Unit) => (0, 0, 0)) () [⟨2, 2, 3, 3⟩] :=
  (C8_tile_failure_isolated (fun (_ : Unit) (_ : BBox) => (Except.error "boom", ()))
      (fun _ => false) (fun (_ : Unit) => (0, 0, 0)) () [⟨0, 0, 1, 1⟩, ⟨2, 2, 3, 3⟩]).2.2
    ⟨0, 0, 1, 1⟩ [⟨2, 2, 3, 3⟩] "boom" () rfl rfl

/-! ## GeometryReconstructor: `extract_relation_geometry`, `determine_area_type`
and `parse_elements` (`api/extractors.py`) -/

/-- A member entry of a relation element: `member.get("type")` (modelled as
the string, `""` covering a missing key), `member.get("ref")`, the inline
`member.get("geometry")` (`none` when absent) and `member.get("role", "")`. -/
structure OsmMember where
  mtype : String
  ref : Option Int
  geometry : Option (List Point)
  role : String
  deriving DecidableEq

/-- The geometry value `extract_relation_geometry` returns, which the source
encodes by nesting depth alone: a bare ring (one outer, no inners), a polygon
as an `[outer, inner…]` ring list, or a MultiPolygon-style list of polygons.
The tagged union makes the three dynamic shapes explicit. -/
inductive RelGeom where
  | ring (r : List Point)
  | polygon (rings : List (List Point))
  | multi (polys : List (List (List Point)))
  deriving DecidableEq

/-- An OSM element as read by `parse_elements` and
`extract_relation_geometry`: `type`, `id`, `tags` (string→string mapping,
unique keys, first-match lookup), the raw `geometry` point list (`none` when
the key is absent) and `members`. -/
structure OsmElement where
  etype : Option String
  id : Option Int
  tags : List (String × String)
  geometry : Option (List Point)
  members : List OsmMember
  deriving DecidableEq

/-- The `way_geometries` dict built at the top of `extract_relation_geometry`:
separate `way` elements carrying a `geometry` key, keyed by id; a later
element overwrites an earlier one (dict assignment), hence the reversed
search. -/
def way_geometries (all_elements : List OsmElement) (ref : Int) :
    Option (List Point) :=
  ((all_elements.filter (fun e =>
      e.etype == some "way" && e.geometry.isSome && e.id.isSome)).reverse.find?
    (fun e => e.id == some ref)).bind (fun e => e.geometry)

/-- `way_geom = member.get("geometry") or way_geometries.get(int(way_ref))`:
Python `or` falls through to the sibling lookup when the inline geometry is
missing (`None`) or falsy (`[]`). -/
def resolve_way_geom (wg : Int → Option (List Point)) (m : OsmMember) (ref : Int) :
    Option (List Point) :=
  match m.geometry with
  | some g => if g.isEmpty then wg ref else some g
  | none => wg ref

/-- The `for member in members` loop of `extract_relation_geometry`:
accumulates `(outer_rings, inner_rings, missing_ways)` in member order.
Non-`way` members and members without a `ref` are skipped (`continue`); a
member whose ring resolves to nothing or to an empty list (`if not way_geom`)
is appended to `missing_ways` and skipped; a resolved ring joins the outer or
inner list according to `role`, any other role is ignored. -/
def collect_rings (wg : Int → Option (List Point)) :
    List OsmMember → List (List Point) × List (List Point) × List Int
  | [] => ([], [], [])
  | m :: rest =>
    let acc := collect_rings wg rest
    if m.mtype ≠ "way" then acc
    else match m.ref with
      | none => acc
      | some ref =>
        match resolve_way_geom wg m ref with
        | none => (acc.1, acc.2.1, ref :: acc.2.2)
        | some g =>
          if g.isEmpty then (acc.1, acc.2.1, ref :: acc.2.2)
          else if m.role = "outer" then (g :: acc.1, acc.2.1, acc.2.2)
          else if m.role = "inner" then (acc.1, g :: acc.2.1, acc.2.2)
          else acc

/-- `OSMNatureReserveExtractor.extract_relation_geometry(relation,
all_elements)`: `None` for no members; after collecting rings, `None` for no
outer ring; one outer and no inners returns that ring directly (fast path);
the general path builds `[[o] for o in outer_rings]`, extends the single
polygon with the inner rings when there is exactly one, and returns the list
when it has several polygons, else the single polygon (inner rings are
dropped when there are several outer rings). -/
def extract_relation_geometry (relation : OsmElement)
    (all_elements : List OsmElement) : Option RelGeom :=
  if relation.members.isEmpty then none
  else
    let acc := collect_rings (way_geometries all_elements) relation.members
    match acc.1, acc.2.1 with
    | [], _ => none
    | [o], [] => some (.ring o)
    | [o], inners => some (.polygon (o :: inners))
    | os, _ => some (.multi (os.map (fun o => [o])))

/-- `tags.get(k)`: first-match lookup in the tag mapping. -/
def tags_get (tags : List (String × String)) (k : String) : Option String :=
  (tags.find? (fun e => e.1 == k)).map (fun e => e.2)

/-- The keep condition of `parse_elements`:
`any(key in tags for key in ["leisure", "boundary", "landuse",
"protect_class", "natural"])`. -/
def has_reserve_tag (tags : List (String × String)) : Bool :=
  ["leisure", "boundary", "landuse", "protect_class", "natural"].any
    (fun k => (tags_get tags k).isSome)

/-- `OSMNatureReserveExtractor.determine_area_type(tags)`: first matching
classification rule wins, else `"other"`. -/
def determine_area_type (tags : List (String × String)) : String :=
  if tags_get tags "leisure" == some "nature_reserve" then "nature_reserve"
  else if tags_get tags "boundary" == some "national_park" then
    "national_park_class_" ++ ((tags_get tags "protect_class").getD "unknown")
  else if tags_get tags "boundary" == some "protected_area" then
    "protected_area_class_" ++ ((tags_get tags "protect_class").getD "unknown")
  else if tags_get tags "landuse" == some "conservation" then "conservation"
  else "other"

/-- Python `a or b` on optional strings: an empty string is falsy. -/
def falsy_or_str (a b : Option String) : Option String :=
  match a with
  | some st => if st = "" then b else some st
  | none => b

/-- `f"{elem_type}_{int(elem_id)}"` (ids are modelled as integers; Python
prints a missing type as `"None"`). -/
def element_id_str (e : OsmElement) (i : Int) : String :=
  (match e.etype with | some st => st | none => "None") ++ "_" ++ toString i

/-- One entry of the list `parse_elements` returns (the fields the claims
read; `osm_data` is the element itself and is omitted). -/
structure ParsedReserve where
  id : String
  name : Option String
  tags : List (String × String)
  geometry : Option RelGeom
  area_type : String
  deriving DecidableEq

/-- The reserve dict built at the end of the `parse_elements` loop body. -/
def mkReserve (e : OsmElement) (i : Int) (g : Option RelGeom) : ParsedReserve :=
  ⟨element_id_str e i,
   falsy_or_str (tags_get e.tags "name") (falsy_or_str (tags_get e.tags "name:en") none),
   e.tags, g, determine_area_type e.tags⟩

/-- The counters `parse_elements` reports. -/
structure ParseCounts where
  filtered : ℕ
  no_geometry : ℕ
  no_tags : ℕ
  nodes : ℕ
  relations : ℕ
  deriving DecidableEq

/-- The `for elem in elements` loop of `parse_elements`, head first: nodes
are filtered; a missing id filters; an element carrying none of the five
reserve keys is filtered and counted under `no_tags`; a relation (counted)
with missing or empty geometry goes through `extract_relation_geometry` and
is filtered under `no_geometry` when that fails; a way without geometry is
filtered under `no_geometry`; every kept element becomes a reserve dict. -/
def parse_elements_go (all_elements : List OsmElement) :
    List OsmElement → List ParsedReserve × ParseCounts
  | [] => ([], ⟨0, 0, 0, 0, 0⟩)
  | e :: rest =>
    let acc := parse_elements_go all_elements rest
    if e.etype == some "node" then
      (acc.1, { acc.2 with filtered := acc.2.filtered + 1, nodes := acc.2.nodes + 1 })
    else match e.id with
    | none => (acc.1, { acc.2 with filtered := acc.2.filtered + 1 })
    | some i =>
      if !(has_reserve_tag e.tags) then
        (acc.1,
         { acc.2 with
             filtered := acc.2.filtered + 1
             no_tags := acc.2.no_tags + 1 })
      else if e.etype == some "relation" then
        if e.geometry.isNone || e.geometry == some [] then
          match extract_relation_geometry e all_elements with
          | none =>
            (acc.1,
             { acc.2 with
                 filtered := acc.2.filtered + 1
                 no_geometry := acc.2.no_geometry + 1
                 relations := acc.2.relations + 1 })
          | some g =>
            (mkReserve e i (some g) :: acc.1,
             { acc.2 with relations := acc.2.relations + 1 })
        else
          (mkReserve e i (e.geometry.map .ring) :: acc.1,
           { acc.2 with relations := acc.2.relations + 1 })
      else if e.etype == some "way" then
        match e.geometry with
        | none =>
          (acc.1,
           { acc.2 with
               filtered := acc.2.filtered + 1
               no_geometry := acc.2.no_geometry + 1 })
        | some pts => (mkReserve e i (some (.ring pts)) :: acc.1, acc.2)
      else
        (mkReserve e i (e.geometry.map .ring) :: acc.1, acc.2)

/-- `OSMNatureReserveExtractor.parse_elements(data)`: the loop over
`data["elements"]`, which is also the sibling list handed to
`extract_relation_geometry`. -/
def parse_elements (all_elements : List OsmElement) :
    List ParsedReserve × ParseCounts :=
  parse_elements_go all_elements all_elements

/-- The outer ring one member contributes, if any: a `way` member with a
`ref` whose ring resolves to a non-empty list and whose role is `"outer"`. -/
def member_outer_ring (wg : Int → Option (List Point)) (m : OsmMember) :
    Option (List Point) :=
  if m.mtype = "way" then
    match m.ref with
    | some ref =>
      match resolve_way_geom wg m ref with
      | some g => if !g.isEmpty && (m.role == "outer") then some g else none
      | none => none
    | none => none
  else none

/-- The inner ring one member contributes, if any. -/
def member_inner_ring (wg : Int → Option (List Point)) (m : OsmMember) :
    Option (List Point) :=
  if m.mtype = "way" then
    match m.ref with
    | some ref =>
      match resolve_way_geom wg m ref with
      | some g => if !g.isEmpty && (m.role == "inner") then some g else none
      | none => none
    | none => none
  else none

/-- The member loop collects exactly the per-member contributions, in member
order: an unresolvable or irrelevant member changes neither ring list. -/
theorem collect_rings_eq_filterMap (wg : Int → Option (List Point))
    (ms : List OsmMember) :
    (collect_rings wg ms).1 = ms.filterMap (member_outer_ring wg)
    ∧ (collect_rings wg ms).2.1 = ms.filterMap (member_inner_ring wg) := by
  induction ms with
  | nil => exact ⟨rfl, rfl⟩
  | cons m rest ih =>
    obtain ⟨ih1, ih2⟩ := ih
    by_cases h1 : m.mtype = "way"
    · rcases hr : m.ref with _ | ref
      · have ho : member_outer_ring wg m = none := by
          simp [member_outer_ring, h1, hr]
        have hi : member_inner_ring wg m = none := by
          simp [member_inner_ring, h1, hr]
        constructor
        · rw [List.filterMap_cons_none ho, ← ih1]
          simp [collect_rings, h1, hr]
        · rw [List.filterMap_cons_none hi, ← ih2]
          simp [collect_rings, h1, hr]
      · rcases hres : resolve_way_geom wg m ref with _ | g
        · have ho : member_outer_ring wg m = none := by
            simp [member_outer_ring, h1, hr, hres]
          have hi : member_inner_ring wg m = none := by
            simp [member_inner_ring, h1, hr, hres]
          constructor
          · rw [List.filterMap_cons_none ho, ← ih1]
            simp [collect_rings, h1, hr, hres]
          · rw [List.filterMap_cons_none hi, ← ih2]
            simp [collect_rings, h1, hr, hres]
        · by_cases hge : g.isEmpty = true
          · have ho : member_outer_ring wg m = none := by
              simp [member_outer_ring, h1, hr, hres, hge]
            have hi : member_inner_ring wg m = none := by
              simp [member_inner_ring, h1, hr, hres, hge]
            constructor
            · rw [List.filterMap_cons_none ho, ← ih1]
              simp [collect_rings, h1, hr, hres, hge]
            · rw [List.filterMap_cons_none hi, ← ih2]
              simp [collect_rings, h1, hr, hres, hge]
          · have hge' : g.isEmpty = false := by simpa using hge
            by_cases hro : m.role = "outer"
            · have ho : member_outer_ring wg m = some g := by
                simp [member_outer_ring, h1, hr, hres, hge', hro]
              have hi : member_inner_ring wg m = none := by
                simp [member_inner_ring, h1, hr, hres, hge', hro]
              constructor
              · rw [List.filterMap_cons_some ho, ← ih1]
                simp [collect_rings, h1, hr, hres, hge', hro]
              · rw [List.filterMap_cons_none hi, ← ih2]
                simp [collect_rings, h1, hr, hres, hge', hro]
            · by_cases hri : m.role = "inner"
              · have ho : member_outer_ring wg m = none := by
                  simp [member_outer_ring, h1, hr, hres, hge', hro, hri]
                have hi : member_inner_ring wg m = some g := by
                  simp [member_inner_ring, h1, hr, hres, hge', hro, hri]
                constructor
                · rw [List.filterMap_cons_none ho, ← ih1]
                  simp [collect_rings, h1, hr, hres, hge', hro, hri]
                · rw [List.filterMap_cons_some hi, ← ih2]
                  simp [collect_rings, h1, hr, hres, hge', hro, hri]
              · have ho : member_outer_ring wg m = none := by
                  simp [member_outer_ring, h1, hr, hres, hge', hro, hri]
                have hi : member_inner_ring wg m = none := by
                  simp [member_inner_ring, h1, hr, hres, hge', hro, hri]
                constructor
                · rw [List.filterMap_cons_none ho, ← ih1]
                  simp [collect_rings, h1, hr, hres, hge', hro, hri]
                · rw [List.filterMap_cons_none hi, ← ih2]
                  simp [collect_rings, h1, hr, hres, hge', hro, hri]
    · have ho : member_outer_ring wg m = none := by
        simp [member_outer_ring, h1]
      have hi : member_inner_ring wg m = none := by
        simp [member_inner_ring, h1]
      constructor
      · rw [List.filterMap_cons_none ho, ← ih1]
        simp [collect_rings, h1]
      · rw [List.filterMap_cons_none hi, ← ih2]
        simp [collect_rings, h1]

/-- C6: case analysis of `extract_relation_geometry` over a relation and its
sibling batch: a member whose ring cannot be resolved is skipped without
aborting the rest; zero resolvable outer rings yields `None`; exactly one
outer ring and no inner rings yields that ring directly (no holes); one outer
ring with inner rings yields that outer ring with the inner rings as holes;
several outer rings yield a MultiPolygon with one polygon per outer ring. -/
theorem C6_extract_relation_geometry_cases (relation : OsmElement)
    (all_elements : List OsmElement) :
    (relation.members = [] →
      extract_relation_geometry relation all_elements = none)
    ∧ (relation.members.filterMap
        (member_outer_ring (way_geometries all_elements)) = [] →
      extract_relation_geometry relation all_elements = none)
    ∧ (∀ o, relation.members.filterMap
          (member_outer_ring (way_geometries all_elements)) = [o] →
        relation.members.filterMap
          (member_inner_ring (way_geometries all_elements)) = [] →
        extract_relation_geometry relation all_elements = some (.ring o))
    ∧ (∀ o, relation.members.filterMap
          (member_outer_ring (way_geometries all_elements)) = [o] →
        relation.members.filterMap
          (member_inner_ring (way_geometries all_elements)) ≠ [] →
        extract_relation_geometry relation all_elements =
          some (.polygon (o :: relation.members.filterMap
            (member_inner_ring (way_geometries all_elements)))))
    ∧ (2 ≤ (relation.members.filterMap
          (member_outer_ring (way_geometries all_elements))).length →
        extract_relation_geometry relation all_elements =
          some (.multi ((relation.members.filterMap
            (member_outer_ring (way_geometries all_elements))).map (fun o => [o]))))
    ∧ (∀ (m : OsmMember) (ms : List OsmMember),
        member_outer_ring (way_geometries all_elements) m = none →
        member_inner_ring (way_geometries all_elements) m = none →
        (collect_rings (way_geometries all_elements) (m :: ms)).1 =
            (collect_rings (way_geometries all_elements) ms).1
        ∧ (collect_rings (way_geometries all_elements) (m :: ms)).2.1 =
            (collect_rings (way_geometries all_elements) ms).2.1) := by
  obtain ⟨hc1, hc2⟩ := collect_rings_eq_filterMap (way_geometries all_elements)
    relation.members
  refine ⟨?_, ?_, ?_, ?_, ?_, ?_⟩
  · intro h
    simp [extract_relation_geometry, h]
  · intro h
    by_cases hm : relation.members.isEmpty
    · simp [extract_relation_geometry, hm]
    · simp only [extract_relation_geometry, hm, Bool.false_eq_true, if_false]
      rw [hc1] at *
      rw [h]
  · intro o ho hi
    have hm : relation.members.isEmpty = false := by
      rcases hmm : relation.members with _ | ⟨x, xs⟩
      · rw [hmm] at ho
        simp at ho
      · rfl
    simp only [extract_relation_geometry, hm, Bool.false_eq_true, if_false]
    rw [hc1, hc2, ho, hi]
  · intro o ho hi
    have hm : relation.members.isEmpty = false := by
      rcases hmm : relation.members with _ | ⟨x, xs⟩
      · rw [hmm] at ho
        simp at ho
      · rfl
    simp only [extract_relation_geometry, hm, Bool.false_eq_true, if_false]
    rw [hc1, hc2, ho]
    rcases hin : relation.members.filterMap
        (member_inner_ring (way_geometries all_elements)) with _ | ⟨r, rs⟩
    · exact absurd hin hi
    · rfl
  · intro hlen
    rcases ho : relation.members.filterMap
        (member_outer_ring (way_geometries all_elements)) with _ | ⟨o1, _ | ⟨o2, os⟩⟩
    · rw [ho] at hlen
      simp at hlen
    · rw [ho] at hlen
      simp at hlen
    · have hm : relation.members.isEmpty = false := by
        rcases hmm : relation.members with _ | ⟨x, xs⟩
        · rw [hmm] at ho
          simp at ho
        · rfl
      simp only [extract_relation_geometry, hm, Bool.false_eq_true, if_false]
      rw [hc1, ho]
  · intro m ms hmo hmi
    obtain ⟨g1, g2⟩ := collect_rings_eq_filterMap (way_geometries all_elements) (m :: ms)
    obtain ⟨g3, g4⟩ := collect_rings_eq_filterMap (way_geometries all_elements) ms
    constructor
    · rw [g1, g3, List.filterMap_cons_none hmo]
    · rw [g2, g4, List.filterMap_cons_none hmi]

/-- The relation used by the C6 witness: two outer-role way members with
inline 4-point rings (the spec's §8 reconstruction test). -/
def c6Relation : OsmElement :=
  ⟨some "relation", some 9, [("leisure", "nature_reserve")], none,
   [⟨"way", some 1, some [(0, 0), (1, 0), (1, 1), (0, 0)], "outer"⟩,
    ⟨"way", some 2, some [(5, 5), (6, 5), (6, 6), (5, 5)], "outer"⟩]⟩

/-- Witness for C6 at a concrete input: a relation with two resolvable
outer-role members reconstructs to a MultiPolygon with one polygon per outer
ring. -/
theorem C6_extract_relation_geometry_cases_witness :
    extract_relation_geometry c6Relation [] =
      some (.multi ((c6Relation.members.filterMap
        (member_outer_ring (way_geometries []))).map (fun o => [o]))) :=
  (C6_extract_relation_geometry_cases c6Relation []).2.2.2.2.1 (by decide)

/-- Every reserve `parse_elements` emits keeps the element's tag mapping,
carries at least one of the five reserve keys, and is classified by
`determine_area_type` on that mapping. -/
theorem parse_elements_go_kept (all_elements : List OsmElement)
    (l : List OsmElement) :
    ∀ r ∈ (parse_elements_go all_elements l).1,
      has_reserve_tag r.tags = true ∧ r.area_type = determine_area_type r.tags := by
  induction l with
  | nil => intro r hr; simp [parse_elements_go] at hr
  | cons e rest ih =>
    intro r hr
    by_cases hn : (e.etype == some "node") = true
    · rw [show parse_elements_go all_elements (e :: rest) =
          ((parse_elements_go all_elements rest).1,
            { (parse_elements_go all_elements rest).2 with
                filtered := (parse_elements_go all_elements rest).2.filtered + 1
                nodes := (parse_elements_go all_elements rest).2.nodes + 1 }) by
          simp [parse_elements_go, hn]] at hr
      exact ih r hr
    · have hn' : (e.etype == some "node") = false := by simpa using hn
      rcases hid : e.id with _ | i
      · rw [show parse_elements_go all_elements (e :: rest) =
            ((parse_elements_go all_elements rest).1,
              { (parse_elements_go all_elements rest).2 with
                  filtered := (parse_elements_go all_elements rest).2.filtered + 1 }) by
            simp [parse_elements_go, hn', hid]] at hr
        exact ih r hr
      · by_cases ht : has_reserve_tag e.tags = true
        · have hkept : ∀ g, r = mkReserve e i g ∨ r ∈ (parse_elements_go all_elements rest).1 →
              has_reserve_tag r.tags = true ∧ r.area_type = determine_area_type r.tags := by
            intro g hg
            rcases hg with rfl | hmem
            · exact ⟨ht, rfl⟩
            · exact ih r hmem
          simp only [parse_elements_go, hn', Bool.false_eq_true, if_false, hid, ht,
            Bool.not_true] at hr
          by_cases hrel : (e.etype == some "relation") = true
          · simp only [hrel, if_true] at hr
            by_cases hgN : (e.geometry.isNone || e.geometry == some []) = true
            · simp only [hgN, if_true] at hr
              rcases hex : extract_relation_geometry e all_elements with _ | g
              · rw [hex] at hr
                exact ih r hr
              · rw [hex] at hr
                simp only [List.mem_cons] at hr
                exact hkept (some g) hr
            · simp only [hgN, Bool.false_eq_true, if_false] at hr
              simp only [List.mem_cons] at hr
              exact hkept (e.geometry.map RelGeom.ring) hr
          · have hrel' : (e.etype == some "relation") = false := by simpa using hrel
            simp only [hrel', Bool.false_eq_true, if_false] at hr
            by_cases hw : (e.etype == some "way") = true
            · simp only [hw, if_true] at hr
              rcases hg : e.geometry with _ | pts
              · rw [hg] at hr
                exact ih r hr
              · rw [hg] at hr
                simp only [List.mem_cons] at hr
                exact hkept (some (.ring pts)) hr
            · have hw' : (e.etype == some "way") = false := by simpa using hw
              simp only [hw', Bool.false_eq_true, if_false, List.mem_cons] at hr
              exact hkept (e.geometry.map RelGeom.ring) hr
        · have ht' : has_reserve_tag e.tags = false := by simpa using ht
          rw [show parse_elements_go all_elements (e :: rest) =
              ((parse_elements_go all_elements rest).1,
                { (parse_elements_go all_elements rest).2 with
                    filtered := (parse_elements_go all_elements rest).2.filtered + 1
                    no_tags := (parse_elements_go all_elements rest).2.no_tags + 1 }) by
              simp [parse_elements_go, hn', hid, ht']] at hr
          exact ih r hr

/-- C10: `parse_elements` keeps a way or relation element only if its tags
contain at least one of the keys `leisure`, `boundary`, `landuse`,
`protect_class`, `natural`; an element with none of them is dropped and
counted under missing tags; a kept element that matches no classification
rule is still retained with area type `"other"`. -/
theorem C10_parse_elements_tag_filter (all_elements : List OsmElement) :
    (∀ r ∈ (parse_elements all_elements).1, has_reserve_tag r.tags = true)
    ∧ (∀ (e : OsmElement) (i : Int) (rest : List OsmElement),
        e.etype ≠ some "node" → e.id = some i → has_reserve_tag e.tags = false →
        (parse_elements_go all_elements (e :: rest)).1 =
            (parse_elements_go all_elements rest).1
        ∧ (parse_elements_go all_elements (e :: rest)).2.no_tags =
            (parse_elements_go all_elements rest).2.no_tags + 1
        ∧ (parse_elements_go all_elements (e :: rest)).2.filtered =
            (parse_elements_go all_elements rest).2.filtered + 1)
    ∧ (∀ r ∈ (parse_elements all_elements).1,
        tags_get r.tags "leisure" ≠ some "nature_reserve" →
        tags_get r.tags "boundary" ≠ some "national_park" →
        tags_get r.tags "boundary" ≠ some "protected_area" →
        tags_get r.tags "landuse" ≠ some "conservation" →
        r.area_type = "other") := by
  refine ⟨?_, ?_, ?_⟩
  · intro r hr
    exact (parse_elements_go_kept all_elements all_elements r hr).1
  · intro e i rest hn hid ht
    have hn' : (e.etype == some "node") = false := beq_eq_false_iff_ne.mpr hn
    refine ⟨?_, ?_, ?_⟩ <;>
      simp [parse_elements_go, hn', hid, ht]
  · intro r hr h1 h2 h3 h4
    have harea := (parse_elements_go_kept all_elements all_elements r hr).2
    rw [harea]
    have b1 : (tags_get r.tags "leisure" == some "nature_reserve") = false :=
      beq_eq_false_iff_ne.mpr h1
    have b2 : (tags_get r.tags "boundary" == some "national_park") = false :=
      beq_eq_false_iff_ne.mpr h2
    have b3 : (tags_get r.tags "boundary" == some "protected_area") = false :=
      beq_eq_false_iff_ne.mpr h3
    have b4 : (tags_get r.tags "landuse" == some "conservation") = false :=
      beq_eq_false_iff_ne.mpr h4
    simp [determine_area_type, b1, b2, b3, b4]

/-- The element used by the C10 witness: a way carrying only a `natural`
tag — kept, with no classification rule matching. -/
def c10Element : OsmElement :=
  ⟨some "way", some 5, [("natural", "wood")],
   some [(0, 0), (1, 0), (1, 1), (0, 0)], []⟩

/-- Witness for C10 at a concrete input: the parsed reserve of the
`natural`-only way is retained and classified `"other"`. -/
theorem C10_parse_elements_tag_filter_witness :
    has_reserve_tag (⟨"way_5", none, [("natural", "wood")],
        some (.ring [(0, 0), (1, 0), (1, 1), (0, 0)]), "other"⟩ : ParsedReserve).tags = true
    ∧ (⟨"way_5", none, [("natural", "wood")],
        some (.ring [(0, 0), (1, 0), (1, 1), (0, 0)]), "other"⟩ : ParsedReserve).area_type
      = "other" :=
  ⟨(C10_parse_elements_tag_filter [c10Element]).1
      ⟨"way_5", none, [("natural", "wood")],
        some (.ring [(0, 0), (1, 0), (1, 1), (0, 0)]), "other"⟩ (by decide),
   (C10_parse_elements_tag_filter [c10Element]).2.2
      ⟨"way_5", none, [("natural", "wood")],
        some (.ring [(0, 0), (1, 0), (1, 1), (0, 0)]), "other"⟩ (by decide)
      (by decide) (by decide) (by decide) (by decide)⟩

end OpenNatureMap
